import Mathlib

/-!
Verification of the IWBHT_SDK (Flock SDK) sources against their
natural-language specification.

Two source files are embedded:

* `Source/Urho3D/Core/Platform.cpp` — platform query helpers.  OS calls
  (`getpwuid`, `gethostname`, `uname`, `sysinfo`, `fopen`+`fscanf`, `getenv`)
  are abstracted as `Option`-valued inputs: `none` models the call failing
  (or the queried file/variable being absent), `some x` models a successful
  call producing `x`.  Everything downstream of those calls is translated
  statement by statement.

* `Source/Flock/IK/IKEffector.h` — the IK effector component.  Only the
  header (declarations and doc comments) is part of the sources, so the
  behaviour of each member function is modelled from the specification and
  the header's own doc comments; such definitions carry a
  `Modelled from the spec:` note.

Strings are represented as `List Char` where the character-level loop of
`ParseArguments` is embedded, and as `String` elsewhere.
-/

namespace Platform

/-! ## ParseArguments (Platform.cpp lines 324-369), source embedding

The C++ loop walks the command line by index, toggling `inQuote` on every
double quote, closing the current token on an unquoted space, and recording
tokens as substrings `[cmdStart, cmdEnd)` of the original string.  The local
mutable variables of the loop form `ArgScanState`; one iteration of the
`for` loop is `parseStep`; the trailing `if (inCmd)` block is `finishScan`.
-/

/-- The mutable locals of the `ParseArguments` scanning loop:
`arguments`, `cmdStart`, `inCmd`, `inQuote` and the (by-value, locally
mutated) parameter `skipFirstArgument`. -/
@[ext]
structure ArgScanState where
  arguments : List (List Char)
  cmdStart : Nat
  inCmd : Bool
  inQuote : Bool
  skipFirst : Bool
deriving Repr, DecidableEq

/-- `cmdLine.Substring(s, e - s)`: the characters of positions `[s, e)`. -/
def substr (cmdLine : List Char) (s e : Nat) : List Char :=
  (cmdLine.take e).drop s

/-- One iteration of the `for (unsigned i = 0; i < cmdLine.Length(); ++i)`
loop of `ParseArguments`, at index `ic.1` looking at character `ic.2`.
The quote toggle `if (cmdLine[i] == '\"') inQuote = !inQuote;` runs first,
so each occurrence of `inQuote` below is the freshly toggled value. -/
def parseStep (cmdLine : List Char) (st : ArgScanState) (ic : Nat × Char) :
    ArgScanState :=
  if ic.2 = ' ' ∧ (if ic.2 = '"' then !st.inQuote else st.inQuote) = false then
    if st.inCmd then
      { arguments :=
          if st.skipFirst then st.arguments
          else st.arguments ++ [substr cmdLine st.cmdStart ic.1]
        cmdStart := st.cmdStart
        inCmd := false
        inQuote := (if ic.2 = '"' then !st.inQuote else st.inQuote)
        skipFirst := false }
    else
      { st with inQuote := (if ic.2 = '"' then !st.inQuote else st.inQuote) }
  else
    if st.inCmd then
      { st with inQuote := (if ic.2 = '"' then !st.inQuote else st.inQuote) }
    else
      { st with
        inQuote := (if ic.2 = '"' then !st.inQuote else st.inQuote)
        inCmd := true
        cmdStart := ic.1 }

/-- The `if (inCmd)` block after the loop: the last, unterminated token is
pushed (unless it is the skipped first argument). -/
def finishScan (cmdLine : List Char) (st : ArgScanState) : List (List Char) :=
  if st.inCmd then
    if st.skipFirst then st.arguments
    else st.arguments ++ [substr cmdLine st.cmdStart cmdLine.length]
  else st.arguments

/-- `arguments[i].Replace("\"", "")`: every double quote is removed. -/
def stripQuotes (a : List Char) : List Char :=
  a.filter (fun ch => ch ≠ '"')

/-- `ParseArguments(const String& cmdLine, bool skipFirstArgument)`
(Platform.cpp lines 324-369), as a pure function of the command line. -/
def ParseArguments (cmdLine : List Char) (skipFirstArgument : Bool) :
    List (List Char) :=
  let st := cmdLine.enum.foldl (parseStep cmdLine)
    ⟨[], 0, false, false, skipFirstArgument⟩
  (finishScan cmdLine st).map stripQuotes

/-! ## ParseArguments: tokenizer as the specification words it (claim C9)

The claim describes the result as the maximal runs of characters not split
by a space, where a space splits only when the number of double quotes
strictly before it is even; quotes are then removed from each token, and
the first token is dropped when `skipFirstArgument` is set. -/

/-- Position `i` of `cmdLine` is a splitting space: the character there is
`' '` and the number of `'"'` characters strictly before it is even. -/
def splitsAt (cmdLine : List Char) (i : Nat) : Bool :=
  decide (cmdLine[i]? = some ' ')
    && decide ((cmdLine.take i).count '"' % 2 = 0)

/-- Every character of `cmdLine`, annotated with whether it is a splitting
space. -/
def annotated (cmdLine : List Char) : List (Char × Bool) :=
  cmdLine.enum.map (fun ic => (ic.2, splitsAt cmdLine ic.1))

/-- Groups an annotated character list into its maximal runs of
non-splitting characters; `acc` is the (possibly empty) run in progress. -/
def runsAux : List (Char × Bool) → List Char → List (List Char)
  | [], acc => if acc = [] then [] else [acc]
  | cb :: rest, acc =>
    if cb.2 then (if acc = [] then runsAux rest [] else acc :: runsAux rest [])
    else runsAux rest (acc ++ [cb.1])

/-- The tokens of `cmdLine` as the specification words them: the maximal
runs of characters not split by an unquoted space. -/
def specTokens (cmdLine : List Char) : List (List Char) :=
  runsAux (annotated cmdLine) []

/-- Claim C9's description of `ParseArguments`: the tokens, first one
dropped when `skip` is set, with every double quote removed. -/
def ParseArgumentsSpec (cmdLine : List Char) (skip : Bool) :
    List (List Char) :=
  (if skip then (specTokens cmdLine).drop 1 else specTokens cmdLine).map
    stripQuotes

/-- Annotation of a suffix of the command line given the quote parity
`inQuote` accumulated on the prefix before it; bridges the scanning loop
and the positional `annotated`. -/
def annotFrom (inQuote : Bool) : List Char → List (Char × Bool)
  | [] => []
  | c :: rest =>
    let q := if c = '"' then !inQuote else inQuote
    (c, decide (c = ' ') && !q) :: annotFrom q rest

/-- Drops the first token when `skip` is set. -/
def emit (skip : Bool) (toks : List (List Char)) : List (List Char) :=
  if skip then toks.drop 1 else toks

/-! ## Global state of Platform.cpp (claim C8)

Platform.cpp keeps two module-level variables, `static String currentLine`
and `static Vector<String> arguments` (lines 160-161).  `ParseArguments`
clears and refills `arguments`; `GetArguments` returns it. -/

/-- The module-level mutable state of Platform.cpp. -/
structure PlatformState where
  currentLine : String
  arguments : List (List Char)
deriving Repr, DecidableEq

/-- `ParseArguments` together with its effect on the module-level
`arguments` vector: the vector is cleared and refilled with the parsed
tokens, and a reference to it is returned. -/
def ParseArgumentsGlobal (st : PlatformState) (cmdLine : List Char)
    (skipFirstArgument : Bool) : List (List Char) × PlatformState :=
  let r := ParseArguments cmdLine skipFirstArgument
  (r, { st with arguments := r })

/-- `GetArguments()` (Platform.cpp lines 396-399): returns the module-level
`arguments` vector. -/
def GetArguments (st : PlatformState) : List (List Char) :=
  st.arguments

/-! ## GetCPUData, Linux branch (claim C10, Platform.cpp lines 171-204)

`present` abstracts the outcome of `fscanf(fp, "%d-%d", &i, &j)` on
`/sys/devices/system/cpu/present`: `none` means the file could not be
opened, `some (res, i, j)` gives the match count and the two scanned
values after their conversion to `unsigned` (so already reduced mod 2^32).
`siblings` abstracts the match count of
`fscanf(fp, "%d,%d,%d,%d", &i, &j, &i, &j)` on
`cpu0/topology/thread_siblings_list`, `none` again meaning the file could
not be opened. -/

/-- `struct CpuCoreCount` (Platform.cpp lines 163-167). -/
structure CpuCoreCount where
  numPhysicalCores_ : Nat
  numLogicalCores_ : Nat
deriving Repr, DecidableEq

/-- `GetCPUData` (Linux branch).  Starts from one core, overwrites both
counts with `j + 1` (unsigned arithmetic) when the `present` file scanned
as `0-j`, then divides the physical count by the sibling match count when
more than one sibling was scanned. -/
def GetCPUData (present : Option (Nat × Nat × Nat)) (siblings : Option Nat) :
    CpuCoreCount :=
  match present with
  | none => ⟨1, 1⟩
  | some (res, i, j) =>
    if res = 2 ∧ i = 0 then
      let n := (j + 1) % 2 ^ 32
      match siblings with
      | none => ⟨n, n⟩
      | some res2 => if res2 > 1 then ⟨n / res2, n⟩ else ⟨n, n⟩
    else ⟨1, 1⟩

/-- `GetNumCPUCores` (Linux branch, Platform.cpp lines 482-496): returns
`numPhysicalCores_` of `GetCPUData`. -/
def GetNumCPUCores (present : Option (Nat × Nat × Nat))
    (siblings : Option Nat) : Nat :=
  (GetCPUData present siblings).numPhysicalCores_

/-! ## Platform queries with OS fallbacks (claim C7)

Each function is the Linux branch of the corresponding Platform.cpp
function, with the OS call abstracted as an `Option` input (`none` = the
call failed / the feature is unsupported). -/

/-- `GetLoginName` (lines 535-565): `getpwuid(getuid())`, abstracted as
`pw` (the `pw_name` field when the call succeeds). -/
def GetLoginName (pw : Option String) : String :=
  match pw with
  | some name => name
  | none => "(?)"

/-- `GetHostName` (lines 567-580): `gethostname`, abstracted as `host`. -/
def GetHostName (host : Option String) : String :=
  match host with
  | some buffer => buffer
  | none => "(?)"

/-- `GetOSVersion` (lines 597-701), Linux branch: `uname`, abstracted as
the `(sysname, release)` pair when it succeeds. -/
def GetOSVersion (un : Option (String × String)) : String :=
  match un with
  | some u => u.1 ++ " " ++ u.2
  | none => "(Unknown OS version)"

/-- `GetTotalMemory` (lines 512-533), Linux branch: `sysinfo`, abstracted
as `si` (the `totalram` field when the call succeeds). -/
def GetTotalMemory (si : Option Nat) : Nat :=
  match si with
  | some s => s
  | none => 0

/-- `GetCPUClock` (lines 751-769), Linux branch: the value parsed from the
first `cpu MHz` line of `/proc/cpuinfo`; `none` when the file cannot be
opened or holds no such line. -/
def GetCPUClock (mhz : Option Nat) : Nat :=
  match mhz with
  | some v => v
  | none => 0

/-- Substring occurrence test on character lists. -/
def hasSubstring (pat : List Char) : List Char → Bool
  | [] => pat.isEmpty
  | c :: rest => pat.isPrefixOf (c :: rest) || hasSubstring pat rest

/-- `String::Contains(str, false)`: case-insensitive substring test. -/
def containsNoCase (s sub : String) : Bool :=
  hasSubstring (sub.toList.map Char.toLower) (s.toList.map Char.toLower)

/-- `GetCPUArchitecture` (lines 771-802), Linux branch: `uname`'s
`machine` field, abstracted as `machine`. -/
def GetCPUArchitecture (machine : Option String) : String :=
  match machine with
  | some s =>
    if containsNoCase s "x86_64" then "x86_64"
    else if containsNoCase s "IA64" then "IA64"
    else if containsNoCase s "i686" then "x86"
    else if containsNoCase s "ARM" then "ARM"
    else "(Unknown architecture)"
  | none => "(Unknown architecture)"

/-- `GetHomePath` (lines 703-719), Linux branch: `getenv("HOME")`
abstracted as `home`, `getpwuid(getuid())->pw_dir` as `pwdir`. -/
def GetHomePath (home : Option String) (pwdir : Option String) : String :=
  (match home with
   | some c => c
   | none =>
     match pwdir with
     | some d => d
     | none => "") ++ "/"

/-- `GetTemporaryPath` (lines 721-738), Linux branch: `getenv("TMPDIR")`
abstracted as `tmpdir`; `P_tmpdir` is `"/tmp"` on Linux/glibc. -/
def GetTemporaryPath (tmpdir : Option String) : String :=
  match tmpdir with
  | none => "/tmp" ++ "/"
  | some c => c

/-- Claim C7's sentinel shape: a string of the form `"(Unknown ...)"`. -/
def unknownSentinel (s : String) : Bool :=
  "(Unknown".isPrefixOf s

end Platform

namespace IK

/-! ## IKEffector (Source/Flock/IK/IKEffector.h, claims C1-C5)

Only the header of `IKEffector` is among the sources: it declares the data
members (lines 170-182) and documents each member function, but the
implementations (IKEffector.cpp, IKSolver, the blend code) are absent.
Every behavioural definition below is therefore modelled from the
specification and from the header's doc comments, and says so.  Scalars are
real numbers: the model ignores floating-point rounding. -/

abbrev Vec3 : Type := ℝ × ℝ × ℝ

abbrev Quat : Type := ℝ × ℝ × ℝ × ℝ

/-- A joint pose: world position and rotation. -/
structure Pose where
  position : Vec3
  rotation : Quat

/-- Linear interpolation of positions (glossary: Lerp). -/
def lerpV (a b : Vec3) (w : ℝ) : Vec3 := a + w • (b - a)

/-- Componentwise linear interpolation of quaternions. -/
def lerpQ (a b : Quat) (w : ℝ) : Quat := a + w • (b - a)

/-- Quaternion dot product. -/
def dot4 (p q : Quat) : ℝ :=
  p.1 * q.1 + p.2.1 * q.2.1 + p.2.2.1 * q.2.2.1 + p.2.2.2 * q.2.2.2

/-- Vector dot product. -/
def dot3 (u v : Vec3) : ℝ :=
  u.1 * v.1 + u.2.1 * v.2.1 + u.2.2 * v.2.2

/-- Modelled from the spec: spherical interpolation of rotations
(glossary: Slerp); the implementation is absent from the sources.  The
standard geometric slerp, degenerating to componentwise lerp when the
angle between the quaternions has zero sine. -/
noncomputable def slerpQ (q0 q1 : Quat) (t : ℝ) : Quat :=
  if Real.sin (Real.arccos (dot4 q0 q1)) = 0 then lerpQ q0 q1 t
  else (Real.sin ((1 - t) * Real.arccos (dot4 q0 q1))
        / Real.sin (Real.arccos (dot4 q0 q1))) • q0
    + (Real.sin (t * Real.arccos (dot4 q0 q1))
        / Real.sin (Real.arccos (dot4 q0 q1))) • q1

/-- The angle between the displacements `u` and `v`. -/
noncomputable def vecAngle (u v : Vec3) : ℝ :=
  Real.arccos (dot3 u v / (Real.sqrt (dot3 u u) * Real.sqrt (dot3 v v)))

/-- Modelled from the spec: spherical interpolation of the rotational
displacement carrying one position offset to another (spec 4.3, used by
the weighted-nlerp branch); the implementation is absent from the
sources. -/
noncomputable def slerpV (u v : Vec3) (t : ℝ) : Vec3 :=
  if Real.sin (vecAngle u v) = 0 then lerpV u v t
  else (Real.sin ((1 - t) * vecAngle u v) / Real.sin (vecAngle u v)) • u
    + (Real.sin (t * vecAngle u v) / Real.sin (vecAngle u v)) • v

/-- Modelled from the spec: clamping a parameter to `[0,1]` on write
(spec 3 invariants, 4.2); the setter implementations are absent from the
sources. -/
noncomputable def clamp01 (v : ℝ) : ℝ :=
  if v < 0 then 0 else if v > 1 then 1 else v

/-- Modelled from the spec (4.3) and the `SetRotationDecay` doc comment
(IKEffector.h lines 128-138): the rotation blend factor of joint `i`
(0 = chain base) is `rotationWeight * rotationDecay ^ i`, clamped to
`[0,1]`; the blend implementation is absent from the sources. -/
noncomputable def effectiveRotationWeight
    (rotationWeight rotationDecay : ℝ) (i : ℕ) : ℝ :=
  clamp01 (rotationWeight * rotationDecay ^ i)

/-- Modelled from the spec (4.3): the position blend is
`lerp(initial, solved, weight)` unless `weightedNlerp` is enabled and the
weight is strictly between 0 and 1, in which case the blend is a spherical
interpolation of the displacement around the chain's base joint; the
implementation is absent from the sources. -/
noncomputable def blendPosition (weightedNlerp : Bool) (base : Vec3)
    (initialP solvedP : Vec3) (w : ℝ) : Vec3 :=
  if weightedNlerp = true ∧ 0 < w ∧ w < 1 then
    base + slerpV (initialP - base) (solvedP - base) w
  else lerpV initialP solvedP w

/-- Modelled from the spec (4.3, 2): the Chain Blend Policy combines one
joint's initial (pre-solve) pose with its solved pose using the
effector's weight: position per `blendPosition`, rotation by spherical
interpolation; the implementation is absent from the sources. -/
noncomputable def blendJoint (weightedNlerp : Bool) (base : Vec3)
    (initial solved : Pose) (w : ℝ) : Pose :=
  ⟨blendPosition weightedNlerp base initial.position solved.position w,
   slerpQ initial.rotation solved.rotation w⟩

/-- Modelled from the spec (4.3): the Chain Blend Policy applied to every
joint of the chain (initial and solved poses listed base first); the
implementation is absent from the sources. -/
noncomputable def blendChain (weightedNlerp : Bool) (base : Vec3)
    (initial solved : List Pose) (w : ℝ) : List Pose :=
  (initial.zip solved).map
    (fun p => blendJoint weightedNlerp base p.1 p.2 w)

/-- A scene node, as far as the effector observes it: a name and a world
pose (spec 6, scene-graph collaborator). -/
structure Node where
  name : String
  worldPosition : Vec3
  worldRotation : Quat

/-- The data members of `IKEffector` (IKEffector.h lines 170-182).
`targetNode_` and `solver_` are weak references, `ikEffector_` the opaque
per-effector handle of the numerical library; the latter two are carried
opaquely. -/
structure IKEffector where
  targetNode_ : Option Node
  solver_ : Option Unit
  ikEffector_ : Option Unit
  targetName_ : String
  targetPosition_ : Vec3
  targetRotation_ : Quat
  chainLength_ : Nat
  weight_ : ℝ
  rotationWeight_ : ℝ
  rotationDecay_ : ℝ
  weightedNlerp_ : Bool
  inheritParentRotation_ : Bool

/-- `GetTargetNode` (IKEffector.h line 52): the target node, may be none. -/
def GetTargetNode (e : IKEffector) : Option Node := e.targetNode_

/-- Modelled from the spec: `SetTargetNode` (IKEffector.h lines 54-66)
stores the node (none erases the target); the implementation is absent
from the sources. -/
def SetTargetNode (e : IKEffector) (targetNode : Option Node) : IKEffector :=
  { e with targetNode_ := targetNode }

/-- `GetTargetName` (IKEffector.h lines 68-72). -/
def GetTargetName (e : IKEffector) : String := e.targetName_

/-- Modelled from the spec: `SetTargetName` (IKEffector.h lines 74-80)
stores the name and — per its doc comment "This clears the existing
target node" and spec 4.1 — clears the node reference; the implementation
is absent from the sources. -/
def SetTargetName (e : IKEffector) (nodeName : String) : IKEffector :=
  { e with targetName_ := nodeName, targetNode_ := none }

/-- `GetTargetPosition` (IKEffector.h line 83). -/
def GetTargetPosition (e : IKEffector) : Vec3 := e.targetPosition_

/-- Modelled from the spec: `SetTargetPosition` (IKEffector.h lines 84-85)
— per its doc comment "If the effector has a target node then this will
have no effect" and spec 4.2, the write is ignored while a node reference
is set; the implementation is absent from the sources. -/
def SetTargetPosition (e : IKEffector) (targetPosition : Vec3) : IKEffector :=
  if e.targetNode_.isSome then e
  else { e with targetPosition_ := targetPosition }

/-- `GetTargetRotation` (IKEffector.h line 88). -/
def GetTargetRotation (e : IKEffector) : Quat := e.targetRotation_

/-- Modelled from the spec: `SetTargetRotation` (IKEffector.h lines 89-90),
ignored while a node reference is set, like `SetTargetPosition`; the
implementation is absent from the sources. -/
def SetTargetRotation (e : IKEffector) (targetRotation : Quat) : IKEffector :=
  if e.targetNode_.isSome then e
  else { e with targetRotation_ := targetRotation }

/-- `GetChainLength` (IKEffector.h line 98). -/
def GetChainLength (e : IKEffector) : Nat := e.chainLength_

/-- Modelled from the spec: `SetChainLength` (IKEffector.h lines 99-100)
stores the count unchanged (0 is the "to the next solver" sentinel, no
upper-bound validation, spec 4.2); the implementation is absent from the
sources. -/
def SetChainLength (e : IKEffector) (chainLength : Nat) : IKEffector :=
  { e with chainLength_ := chainLength }

/-- `GetWeight` (IKEffector.h lines 102-103). -/
def GetWeight (e : IKEffector) : ℝ := e.weight_

/-- Modelled from the spec: `SetWeight` (IKEffector.h lines 105-112)
clamps to `[0,1]` on write (spec 3, 4.2); the implementation is absent
from the sources. -/
noncomputable def SetWeight (e : IKEffector) (weight : ℝ) : IKEffector :=
  { e with weight_ := clamp01 weight }

/-- `GetRotationWeight` (IKEffector.h lines 114-115). -/
def GetRotationWeight (e : IKEffector) : ℝ := e.rotationWeight_

/-- Modelled from the spec: `SetRotationWeight` (IKEffector.h lines
116-123) clamps to `[0,1]` on write; the implementation is absent from
the sources. -/
noncomputable def SetRotationWeight (e : IKEffector) (weight : ℝ) :
    IKEffector :=
  { e with rotationWeight_ := clamp01 weight }

/-- `GetRotationDecay` (IKEffector.h lines 125-126). -/
def GetRotationDecay (e : IKEffector) : ℝ := e.rotationDecay_

/-- Modelled from the spec: `SetRotationDecay` (IKEffector.h lines
128-138) clamps to `[0,1]` on write; the implementation is absent from
the sources. -/
noncomputable def SetRotationDecay (e : IKEffector) (decay : ℝ) :
    IKEffector :=
  { e with rotationDecay_ := clamp01 decay }

/-- `WeightedNlerpEnabled` (IKEffector.h lines 140-141). -/
def WeightedNlerpEnabled (e : IKEffector) : Bool := e.weightedNlerp_

/-- Modelled from the spec: `EnableWeightedNlerp` (IKEffector.h lines
143-152), a plain boolean toggle; the implementation is absent from the
sources. -/
def EnableWeightedNlerp (e : IKEffector) (enable : Bool) : IKEffector :=
  { e with weightedNlerp_ := enable }

/-- `InheritParentRotationEnabled` (IKEffector.h line 154). -/
def InheritParentRotationEnabled (e : IKEffector) : Bool :=
  e.inheritParentRotation_

/-- Modelled from the spec: `EnableInheritParentRotation` (IKEffector.h
line 155), a plain boolean toggle; the implementation is absent from the
sources. -/
def EnableInheritParentRotation (e : IKEffector) (enable : Bool) :
    IKEffector :=
  { e with inheritParentRotation_ := enable }

/-- Modelled from the spec (4.1 name-based late binding, and the
`SetTargetName` doc comment "When a node is created that matches this
name, it is selected as the target"): registration of a new scene node
adopts it as the target when its name matches the stored target name; the
implementation is absent from the sources. -/
def registerNamedNode (e : IKEffector) (n : Node) : IKEffector :=
  if n.name = e.targetName_ then { e with targetNode_ := some n } else e

/-- The result of `ResolveGoalPose` (spec 4.1): goal position, goal
rotation and whether the chain has a usable target. -/
structure GoalPose where
  position : Vec3
  rotation : Quat
  hasTarget : Bool

/-- Modelled from the spec (4.1 Target Resolver): a live node reference is
the authoritative source of the goal pose; a dead reference disables the
chain rather than reusing the cache; with no reference the cached pose is
the goal.  `alive` is the liveness check of the weak reference.  The
implementation is absent from the sources. -/
def ResolveGoalPose (e : IKEffector) (alive : Node → Bool) : GoalPose :=
  match e.targetNode_ with
  | some n =>
    if alive n then ⟨n.worldPosition, n.worldRotation, true⟩
    else ⟨e.targetPosition_, e.targetRotation_, false⟩
  | none => ⟨e.targetPosition_, e.targetRotation_, true⟩

/-- The public mutating operations of the effector (IKEffector.h public
interface) plus scene-node registration, for stating state invariants. -/
inductive EffectorOp where
  | setTargetNode (targetNode : Option Node)
  | setTargetName (nodeName : String)
  | setTargetPosition (v : Vec3)
  | setTargetRotation (q : Quat)
  | setChainLength (n : Nat)
  | setWeight (w : ℝ)
  | setRotationWeight (w : ℝ)
  | setRotationDecay (d : ℝ)
  | enableWeightedNlerp (b : Bool)
  | enableInheritParentRotation (b : Bool)
  | registerNamedNode (n : Node)

/-- Interpretation of an operation on an effector state. -/
noncomputable def applyOp (e : IKEffector) : EffectorOp → IKEffector
  | .setTargetNode n => SetTargetNode e n
  | .setTargetName s => SetTargetName e s
  | .setTargetPosition v => SetTargetPosition e v
  | .setTargetRotation q => SetTargetRotation e q
  | .setChainLength n => SetChainLength e n
  | .setWeight w => SetWeight e w
  | .setRotationWeight w => SetRotationWeight e w
  | .setRotationDecay d => SetRotationDecay e d
  | .enableWeightedNlerp b => EnableWeightedNlerp e b
  | .enableInheritParentRotation b => EnableInheritParentRotation e b
  | .registerNamedNode n => registerNamedNode e n

/-- The `[0,1]` bounds on the three clamped parameters (spec 3
invariants). -/
def WeightInv (e : IKEffector) : Prop :=
  0 ≤ e.weight_ ∧ e.weight_ ≤ 1 ∧
  0 ≤ e.rotationWeight_ ∧ e.rotationWeight_ ≤ 1 ∧
  0 ≤ e.rotationDecay_ ∧ e.rotationDecay_ ≤ 1

/-- A concrete effector state used to instantiate the theorems. -/
def defaultEffector : IKEffector :=
  ⟨none, none, none, "", (0, 0, 0), (1, 0, 0, 0), 0, 0, 0, 0, false, false⟩

/-- Operations that neither set a target node directly, nor set a target
name, nor register a node whose name matches `nodeName`. -/
def BenignOp (nodeName : String) : EffectorOp → Prop
  | .setTargetNode n => n = none
  | .setTargetName _ => False
  | .registerNamedNode n => n.name ≠ nodeName
  | _ => True

/-- Concrete node used by the claim C5 witness. -/
def witnessNode : Node := ⟨"t", (1, 2, 3), (1, 0, 0, 0)⟩

/-- Concrete effector with a live target node, used by the claim C5
witness. -/
def witnessEffector : IKEffector :=
  { defaultEffector with targetNode_ := some witnessNode }

end IK

namespace Platform

/-! ## Proofs about ParseArguments (claims C8, C9) -/

/-- Splitting `cmdLine` at a position `k` that carries character `c`:
basic take/drop bookkeeping used throughout the loop invariant. -/
lemma take_decomp {cmdLine l : List Char} {c : Char} {k : Nat}
    (h : cmdLine = cmdLine.take k ++ c :: l) :
    (cmdLine.take k).length = k ∧ k < cmdLine.length ∧
      cmdLine[k]? = some c ∧ cmdLine.take (k+1) = cmdLine.take k ++ [c] ∧
      cmdLine = cmdLine.take (k+1) ++ l := by
  have h1 := congrArg List.length h
  simp only [List.length_append, List.length_cons, List.length_take] at h1
  have hk : k ≤ cmdLine.length := by
    rcases Nat.le_total k cmdLine.length with h' | h'
    · exact h'
    · rw [min_eq_right h'] at h1; omega
  have hlen : (cmdLine.take k).length = k := by
    simp [List.length_take, min_eq_left hk]
  have hget : cmdLine[k]? = some c := by
    conv_lhs => rw [h]
    rw [List.getElem?_append_right (by omega)]
    simp [hlen]
  have htake : cmdLine.take (k+1) = cmdLine.take k ++ [c] := by
    rw [List.take_succ, hget]
    rfl
  refine ⟨hlen, ?_, hget, htake, ?_⟩
  · rw [min_eq_left hk] at h1; omega
  · rw [htake, List.append_assoc]
    simpa using h

/-- The positional annotation of a suffix collapses to `annotFrom` seeded
with the parity of quotes on the prefix. -/
lemma annotFrom_eq_aux (cmdLine : List Char) :
    ∀ (l : List Char) (k : Nat), cmdLine = cmdLine.take k ++ l →
    (List.enumFrom k l).map (fun ic => (ic.2, splitsAt cmdLine ic.1))
      = annotFrom (decide ((cmdLine.take k).count '"' % 2 = 1)) l := by
  intro l
  induction l with
  | nil => intro k _; simp [annotFrom]
  | cons c rest ih =>
    intro k h
    obtain ⟨hlen, hk, hget, htake, hrest⟩ := take_decomp h
    have hcount : (cmdLine.take (k+1)).count '"'
        = (cmdLine.take k).count '"' + (if c = '"' then 1 else 0) := by
      rw [htake, List.count_append]
      by_cases hc : c = '"' <;> simp [hc, List.count_singleton']
    show ((k, c) :: List.enumFrom (k+1) rest).map _ = _
    rw [List.map_cons, ih (k+1) hrest]
    show (c, splitsAt cmdLine k) :: _ = annotFrom _ (c :: rest)
    rw [annotFrom]
    have hhead : splitsAt cmdLine k
        = (decide (c = ' ')
            && !(if c = '"'
                 then !decide ((cmdLine.take k).count '"' % 2 = 1)
                 else decide ((cmdLine.take k).count '"' % 2 = 1))) := by
      unfold splitsAt
      rw [hget]
      by_cases hc : c = ' '
      · have hq : ¬ (c = '"') := by rw [hc]; decide
        simp only [hc, if_neg hq, decide_True, Bool.true_and]
        rcases Nat.mod_two_eq_zero_or_one ((cmdLine.take k).count '"') with
          h2 | h2 <;> simp [h2]
      · simp [hc]
    have htail : decide ((cmdLine.take (k+1)).count '"' % 2 = 1)
        = (if c = '"'
           then !decide ((cmdLine.take k).count '"' % 2 = 1)
           else decide ((cmdLine.take k).count '"' % 2 = 1)) := by
      by_cases hc : c = '"'
      · rw [hcount, if_pos hc, if_pos hc]
        rcases Nat.mod_two_eq_zero_or_one ((cmdLine.take k).count '"') with
          h2 | h2 <;> simp [h2, Nat.add_mod]
      · rw [hcount, if_neg hc, if_neg hc]
        simp
    rw [hhead, htail]

/-- The spec-side annotation equals the loop-side annotation started with
`inQuote = false`. -/
lemma annotated_eq (cmdLine : List Char) :
    annotated cmdLine = annotFrom false cmdLine := by
  have h := annotFrom_eq_aux cmdLine cmdLine 0 (by simp)
  simpa [annotated, List.enum] using h

/-- Loop invariant of the `ParseArguments` scan: running the loop over the
suffix starting at position `k` and finishing produces the tokens already
pushed, followed by the runs of the remaining annotated suffix seeded with
the token in progress, with the first token dropped while `skipFirst` is
still set. -/
lemma scan_loop (cmdLine : List Char) :
    ∀ (l : List Char) (k : Nat) (st : ArgScanState),
    cmdLine = cmdLine.take k ++ l →
    (st.inCmd = true → st.cmdStart < k ∧ st.cmdStart < cmdLine.length) →
    finishScan cmdLine (List.foldl (parseStep cmdLine) st (List.enumFrom k l))
      = st.arguments ++ emit st.skipFirst
          (runsAux (annotFrom st.inQuote l)
            (if st.inCmd then substr cmdLine st.cmdStart k else [])) := by
  intro l
  induction l with
  | nil =>
    intro k st h hinv
    show finishScan cmdLine st = _
    cases hst : st.inCmd with
    | false =>
      have hfin : finishScan cmdLine st = st.arguments := by
        simp [finishScan, hst]
      rw [hfin]
      cases hsk : st.skipFirst <;> simp [annotFrom, runsAux, hst, hsk, emit]
    | true =>
      obtain ⟨h1, h2⟩ := hinv hst
      have htk : cmdLine.take k = cmdLine := by
        conv_rhs => rw [h]
        simp
      have hp : cmdLine.drop st.cmdStart ≠ [] := by
        rw [Ne, List.drop_eq_nil_iff]
        omega
      have hsub : substr cmdLine st.cmdStart k = cmdLine.drop st.cmdStart := by
        rw [substr, htk]
      have hsubfin : substr cmdLine st.cmdStart cmdLine.length
          = cmdLine.drop st.cmdStart := by
        rw [substr, List.take_length]
      cases hsk : st.skipFirst with
      | true => simp [finishScan, hst, hsk, hsub, hsubfin, annotFrom,
          runsAux, hp, emit]
      | false => simp [finishScan, hst, hsk, hsub, hsubfin, annotFrom,
          runsAux, hp, emit]
  | cons c rest ih =>
    intro k st h hinv
    obtain ⟨hlen, hk, hget, htake, hrest⟩ := take_decomp h
    show finishScan cmdLine
        (List.foldl (parseStep cmdLine) (parseStep cmdLine st (k, c))
          (List.enumFrom (k+1) rest)) = _
    by_cases hsplit :
        c = ' ' ∧ (if c = '"' then !st.inQuote else st.inQuote) = false
    · obtain ⟨hc, hq⟩ := hsplit
      subst hc
      have hq0 : st.inQuote = false := by simpa using hq
      cases hst : st.inCmd with
      | true =>
        obtain ⟨h1, h2⟩ := hinv hst
        have hstep : parseStep cmdLine st (k, ' ') =
            ⟨if st.skipFirst then st.arguments
             else st.arguments ++ [substr cmdLine st.cmdStart k],
             st.cmdStart, false, st.inQuote, false⟩ := by
          simp [parseStep, hq0, hst]
        have hp : ¬ (substr cmdLine st.cmdStart k = []) := by
          have hl : (substr cmdLine st.cmdStart k).length
              = k - st.cmdStart := by
            simp [substr, List.length_drop, hlen]
          intro hnil
          rw [hnil] at hl
          simp at hl
          omega
        rw [hstep, ih (k+1) _ hrest (by intro hcon; simp at hcon)]
        cases hsk : st.skipFirst <;>
          simp [emit, annotFrom, runsAux, hst, hsk, hq0, hp,
            List.append_assoc]
      | false =>
        have hstep : parseStep cmdLine st (k, ' ') = st := by
          apply ArgScanState.ext <;> simp [parseStep, hq0, hst, apply_ite]
        rw [hstep,
          ih (k+1) st hrest (by intro hcon; rw [hst] at hcon; simp at hcon)]
        simp [emit, annotFrom, runsAux, hst, hq0]
    · have hflag : (decide (c = ' ')
          && !(if c = '"' then !st.inQuote else st.inQuote)) = false := by
        by_cases hc : c = ' '
        · subst hc
          simp only [if_neg (by decide : ¬ (' ' = '"'))] at hsplit ⊢
          have hq1 : st.inQuote = true := by
            cases hqq : st.inQuote
            · exact absurd ⟨trivial, hqq⟩ hsplit
            · rfl
          simp [hq1]
        · simp [hc]
      cases hst : st.inCmd with
      | true =>
        obtain ⟨h1, h2⟩ := hinv hst
        have hstep : parseStep cmdLine st (k, c) =
            { st with
              inQuote := (if c = '"' then !st.inQuote else st.inQuote) } := by
          simp only [parseStep]
          rw [if_neg hsplit]
          simp [hst]
        have hsub : substr cmdLine st.cmdStart (k+1)
            = substr cmdLine st.cmdStart k ++ [c] := by
          rw [substr, substr, htake,
            List.drop_append_of_le_length (by rw [hlen]; omega)]
        rw [hstep,
          ih (k+1) _ hrest (by intro _; exact ⟨Nat.lt_succ_of_lt h1, h2⟩)]
        simp [emit, annotFrom, runsAux, hflag, hsub, hst]
      | false =>
        have hstep : parseStep cmdLine st (k, c) =
            { st with
              inQuote := (if c = '"' then !st.inQuote else st.inQuote)
              inCmd := true
              cmdStart := k } := by
          simp only [parseStep]
          rw [if_neg hsplit]
          simp [hst]
        have hone : substr cmdLine k (k+1) = [c] := by
          rw [substr, htake, List.drop_append_of_le_length (by rw [hlen])]
          rw [List.drop_eq_nil_of_le (by rw [hlen])]
          rfl
        rw [hstep,
          ih (k+1) _ hrest (by intro _; exact ⟨Nat.lt_succ_self k, hk⟩)]
        simp [emit, annotFrom, runsAux, hflag, hone, hst]

end Platform

/-- Claim C9: for every command line and flag, `ParseArguments` returns
exactly the maximal runs of characters not split by a space whose quote
parity is even (a space after an odd number of quotes does not split),
with every double quote removed from each token, and with the first token
omitted when `skipFirstArgument` is set. -/
theorem Platform.parseArguments_eq_spec (cmdLine : List Char) (skip : Bool) :
    Platform.ParseArguments cmdLine skip
      = Platform.ParseArgumentsSpec cmdLine skip := by
  have h0 := Platform.scan_loop cmdLine cmdLine 0 ⟨[], 0, false, false, skip⟩
    (by simp) (by intro hcon; simp at hcon)
  have h1 : Platform.finishScan cmdLine
      (List.foldl (Platform.parseStep cmdLine) ⟨[], 0, false, false, skip⟩
        (List.enumFrom 0 cmdLine))
      = Platform.emit skip (Platform.specTokens cmdLine) := by
    rw [h0]
    simp [← Platform.annotated_eq, Platform.specTokens]
  show (Platform.finishScan cmdLine
      (cmdLine.enum.foldl (Platform.parseStep cmdLine)
        ⟨[], 0, false, false, skip⟩)).map Platform.stripQuotes = _
  rw [show cmdLine.enum = List.enumFrom 0 cmdLine from rfl, h1]
  unfold Platform.ParseArgumentsSpec
  cases skip <;> simp [Platform.emit]

/-- Claim C8 counterexample: `ParseArguments` is not side-effect-free — a
later `GetArguments` observes which `ParseArguments` call ran before it,
on the concrete command lines `"a"` and `"b"` from the same start state. -/
theorem Platform.parseArguments_observable_state :
    Platform.GetArguments
        (Platform.ParseArgumentsGlobal ⟨"", []⟩ "a".toList false).2
      ≠ Platform.GetArguments
        (Platform.ParseArgumentsGlobal ⟨"", []⟩ "b".toList false).2 := by
  decide

/-- Claim C8 (amended): `ParseArguments` overwrites the module-level
`arguments` vector with its result, and `GetArguments` afterwards returns
exactly the token list of the most recent `ParseArguments` call. -/
theorem Platform.getArguments_returns_last_parse (st : Platform.PlatformState)
    (cmdLine : List Char) (skip : Bool) :
    Platform.GetArguments (Platform.ParseArgumentsGlobal st cmdLine skip).2
        = (Platform.ParseArgumentsGlobal st cmdLine skip).1 ∧
    (Platform.ParseArgumentsGlobal st cmdLine skip).1
        = Platform.ParseArguments cmdLine skip :=
  ⟨rfl, rfl⟩

/-- Claim C7 counterexample: on a failed `getpwuid` call, `GetLoginName`
returns `"(?)"`, which is not a string of the form `"(Unknown ...)"`. -/
theorem Platform.getLoginName_sentinel_not_unknown :
    Platform.GetLoginName none = "(?)" ∧
    Platform.unknownSentinel (Platform.GetLoginName none) = false := by
  exact ⟨rfl, by decide⟩

/-- Claim C7 (amended): every platform query degrades to a documented
fixed fallback value when the OS call fails — `"(?)"` for
`GetLoginName`/`GetHostName`, `"(Unknown OS version)"` for `GetOSVersion`,
`"(Unknown architecture)"` for `GetCPUArchitecture` (also for an
unrecognised machine string), `0` for `GetTotalMemory`/`GetCPUClock`,
`"/"` for `GetHomePath` and `"/tmp/"` for `GetTemporaryPath` — and being a
total function of the abstracted OS result, never propagates an error. -/
theorem Platform.platform_query_fallbacks :
    Platform.GetLoginName none = "(?)" ∧
    Platform.GetHostName none = "(?)" ∧
    Platform.GetOSVersion none = "(Unknown OS version)" ∧
    Platform.GetTotalMemory none = 0 ∧
    Platform.GetCPUClock none = 0 ∧
    Platform.GetCPUArchitecture none = "(Unknown architecture)" ∧
    Platform.GetCPUArchitecture (some "powerpc")
        = "(Unknown architecture)" ∧
    Platform.GetHomePath none none = "/" ∧
    Platform.GetTemporaryPath none = "/tmp/" := by
  refine ⟨rfl, rfl, rfl, rfl, rfl, rfl, by decide, by decide, rfl⟩

/-- Claim C10: on present file `"0-1"` (scanned as `res = 2, i = 0, j = 1`)
and siblings file `"0,1,2,3"` (match count 4), `GetCPUData` computes
`numPhysicalCores_ = (1+1)/4 = 0` by integer division, so `GetNumCPUCores`
returns 0 — contradicting the code's own comment `// At least return 1
core`; with both files absent the fallback `⟨1, 1⟩` is kept. -/
theorem Platform.getCPUData_zero_physical_cores :
    (Platform.GetCPUData (some (2, 0, 1)) (some 4)).numPhysicalCores_ = 0 ∧
    Platform.GetNumCPUCores (some (2, 0, 1)) (some 4) = 0 ∧
    (Platform.GetCPUData (some (2, 0, 1)) (some 4)).numLogicalCores_ = 2 ∧
    Platform.GetCPUData none none = ⟨1, 1⟩ := by
  decide

namespace IK

/-! ## Proofs about the effector and the blend policy (claims C1-C5) -/

lemma lerpQ_zero (a b : Quat) : lerpQ a b 0 = a := by
  simp [lerpQ]

lemma lerpQ_one (a b : Quat) : lerpQ a b 1 = b := by
  simp [lerpQ]

lemma lerpV_zero (a b : Vec3) : lerpV a b 0 = a := by
  simp [lerpV]

lemma lerpV_one (a b : Vec3) : lerpV a b 1 = b := by
  simp [lerpV]

lemma slerpQ_zero (q0 q1 : Quat) : slerpQ q0 q1 0 = q0 := by
  unfold slerpQ
  by_cases hs : Real.sin (Real.arccos (dot4 q0 q1)) = 0
  · rw [if_pos hs, lerpQ_zero]
  · rw [if_neg hs, show (1 : ℝ) - 0 = 1 by norm_num, one_mul, zero_mul,
      Real.sin_zero, zero_div, zero_smul, add_zero, div_self hs, one_smul]

lemma slerpQ_one (q0 q1 : Quat) : slerpQ q0 q1 1 = q1 := by
  unfold slerpQ
  by_cases hs : Real.sin (Real.arccos (dot4 q0 q1)) = 0
  · rw [if_pos hs, lerpQ_one]
  · rw [if_neg hs, show (1 : ℝ) - 1 = 0 by norm_num, zero_mul,
      Real.sin_zero, zero_div, zero_smul, zero_add, one_mul,
      div_self hs, one_smul]

lemma blendJoint_zero (wn : Bool) (base : Vec3) (p q : Pose) :
    blendJoint wn base p q 0 = p := by
  unfold blendJoint blendPosition
  rw [if_neg (by intro h; exact absurd h.2.1 (lt_irrefl 0))]
  rw [lerpV_zero, slerpQ_zero]

lemma blendJoint_one (wn : Bool) (base : Vec3) (p q : Pose) :
    blendJoint wn base p q 1 = q := by
  unfold blendJoint blendPosition
  rw [if_neg (by intro h; exact absurd h.2.2 (lt_irrefl 1))]
  rw [lerpV_one, slerpQ_one]

end IK

/-- Claim C1: for every chain (equal-length initial and solved pose lists)
and every joint, at effector weight 0 the blended pose equals the initial
pose exactly (the solved pose has no influence), and at weight 1 it equals
the solved pose exactly (the initial pose has no influence), for both the
lerp and the weighted-nlerp blend modes. -/
theorem IK.blend_weight_endpoints (weightedNlerp : Bool) (base : IK.Vec3)
    (initial solved : List IK.Pose) (hlen : initial.length = solved.length)
    (w : ℝ) :
    (w = 0 → IK.blendChain weightedNlerp base initial solved w = initial) ∧
    (w = 1 → IK.blendChain weightedNlerp base initial solved w = solved) := by
  constructor
  · rintro rfl
    unfold IK.blendChain
    rw [List.map_congr_left
      (fun p _ => IK.blendJoint_zero weightedNlerp base p.1 p.2)]
    exact List.map_fst_zip initial solved (le_of_eq hlen)
  · rintro rfl
    unfold IK.blendChain
    rw [List.map_congr_left
      (fun p _ => IK.blendJoint_one weightedNlerp base p.1 p.2)]
    exact List.map_snd_zip initial solved (ge_of_eq hlen)

/-- Witness for claim C1 at a concrete one-joint chain and weight 0. -/
theorem IK.blend_weight_endpoints_witness :
    IK.blendChain false (0, 0, 0) [⟨(0, 0, 0), (1, 0, 0, 0)⟩]
        [⟨(1, 1, 1), (0, 1, 0, 0)⟩] 0 = [⟨(0, 0, 0), (1, 0, 0, 0)⟩] :=
  (IK.blend_weight_endpoints false (0, 0, 0)
    [⟨(0, 0, 0), (1, 0, 0, 0)⟩] [⟨(1, 1, 1), (0, 1, 0, 0)⟩] rfl 0).1 rfl

namespace IK

lemma clamp01_bounds (v : ℝ) : 0 ≤ clamp01 v ∧ clamp01 v ≤ 1 := by
  unfold clamp01
  constructor <;> split_ifs <;> linarith

lemma clamp01_of_mem {v : ℝ} (h0 : 0 ≤ v) (h1 : v ≤ 1) : clamp01 v = v := by
  unfold clamp01
  rw [if_neg (not_lt.mpr h0), if_neg (not_lt.mpr h1)]

end IK

/-- Claim C2: the rotation blend factor of joint `i` (0 = base) is
`rotationWeight * rotationDecay ^ i` clamped to `[0,1]`; hence for
`rotationDecay = 1` every joint gets the factor `rotationWeight`, and for
`rotationDecay = 0` the base joint gets `rotationWeight` while every
descendant gets factor 0 (given `rotationWeight` within its `[0,1]`
invariant). -/
theorem IK.effectiveRotationWeight_decay (rotationWeight rotationDecay : ℝ)
    (i : ℕ) (h0 : 0 ≤ rotationWeight) (h1 : rotationWeight ≤ 1) :
    (0 ≤ IK.effectiveRotationWeight rotationWeight rotationDecay i ∧
      IK.effectiveRotationWeight rotationWeight rotationDecay i ≤ 1) ∧
    (rotationDecay = 1 →
      IK.effectiveRotationWeight rotationWeight rotationDecay i
        = rotationWeight) ∧
    (rotationDecay = 0 →
      IK.effectiveRotationWeight rotationWeight rotationDecay i
        = if i = 0 then rotationWeight else 0) := by
  refine ⟨IK.clamp01_bounds _, ?_, ?_⟩
  · rintro rfl
    rw [IK.effectiveRotationWeight, one_pow, mul_one,
      IK.clamp01_of_mem h0 h1]
  · rintro rfl
    rcases Nat.eq_zero_or_pos i with hi | hi
    · subst hi
      rw [IK.effectiveRotationWeight, pow_zero, mul_one,
        IK.clamp01_of_mem h0 h1]
      simp
    · rw [IK.effectiveRotationWeight, zero_pow (by omega), mul_zero,
        if_neg (by omega)]
      exact IK.clamp01_of_mem le_rfl zero_le_one

/-- Witness for claim C2 at `rotationWeight = 1`, `rotationDecay = 0`,
joint 3. -/
theorem IK.effectiveRotationWeight_decay_witness :
    IK.effectiveRotationWeight 1 0 3 = 0 := by
  have h := (IK.effectiveRotationWeight_decay 1 0 3 zero_le_one le_rfl).2.2
    rfl
  simpa using h

/-- Claim C3: `SetWeight`, `SetRotationWeight` and `SetRotationDecay`
clamp every input to `[0,1]` on write; the `[0,1]` bound on the three
stored fields is an invariant preserved by every effector operation; and
under that invariant the getters `GetWeight`, `GetRotationWeight`,
`GetRotationDecay` return values in `[0,1]`. -/
theorem IK.weight_fields_clamped (e : IK.IKEffector) (v : ℝ)
    (op : IK.EffectorOp) (he : IK.WeightInv e) :
    (0 ≤ (IK.SetWeight e v).weight_ ∧ (IK.SetWeight e v).weight_ ≤ 1) ∧
    (0 ≤ (IK.SetRotationWeight e v).rotationWeight_ ∧
      (IK.SetRotationWeight e v).rotationWeight_ ≤ 1) ∧
    (0 ≤ (IK.SetRotationDecay e v).rotationDecay_ ∧
      (IK.SetRotationDecay e v).rotationDecay_ ≤ 1) ∧
    IK.WeightInv (IK.applyOp e op) ∧
    (0 ≤ IK.GetWeight e ∧ IK.GetWeight e ≤ 1) ∧
    (0 ≤ IK.GetRotationWeight e ∧ IK.GetRotationWeight e ≤ 1) ∧
    (0 ≤ IK.GetRotationDecay e ∧ IK.GetRotationDecay e ≤ 1) := by
  obtain ⟨h1, h2, h3, h4, h5, h6⟩ := he
  refine ⟨IK.clamp01_bounds v, IK.clamp01_bounds v, IK.clamp01_bounds v, ?_,
    ⟨h1, h2⟩, ⟨h3, h4⟩, ⟨h5, h6⟩⟩
  cases op <;>
    simp_all [IK.applyOp, IK.WeightInv, IK.SetTargetNode, IK.SetTargetName,
      IK.SetTargetPosition, IK.SetTargetRotation, IK.SetChainLength,
      IK.SetWeight, IK.SetRotationWeight, IK.SetRotationDecay,
      IK.EnableWeightedNlerp, IK.EnableInheritParentRotation,
      IK.registerNamedNode, IK.clamp01_bounds, apply_ite]

/-- Witness for claim C3: setting weight 2 on the default effector stores
a value in `[0,1]`. -/
theorem IK.weight_fields_clamped_witness :
    0 ≤ (IK.SetWeight IK.defaultEffector 2).weight_ ∧
    (IK.SetWeight IK.defaultEffector 2).weight_ ≤ 1 :=
  (IK.weight_fields_clamped IK.defaultEffector 2 (.setWeight 2)
    ⟨le_rfl, zero_le_one, le_rfl, zero_le_one, le_rfl, zero_le_one⟩).1

namespace IK

/-- Operations that are benign for a pending target name keep the node
reference cleared and the stored name unchanged. -/
lemma benign_foldl (nodeName : String) :
    ∀ (ops : List EffectorOp) (e : IKEffector),
    (∀ op ∈ ops, BenignOp nodeName op) →
    e.targetNode_ = none → e.targetName_ = nodeName →
    (ops.foldl applyOp e).targetNode_ = none ∧
      (ops.foldl applyOp e).targetName_ = nodeName := by
  intro ops
  induction ops with
  | nil => intro e _ hn hm; exact ⟨hn, hm⟩
  | cons op rest ih =>
    intro e hops hn hm
    have hop : BenignOp nodeName op := hops op (List.mem_cons_self op rest)
    have hrest : ∀ o ∈ rest, BenignOp nodeName o :=
      fun o ho => hops o (List.mem_cons_of_mem op ho)
    apply ih (applyOp e op) hrest
    · cases op with
      | setTargetNode n =>
        simp [BenignOp] at hop
        simp [applyOp, SetTargetNode, hop]
      | setTargetName s => exact absurd hop (by simp [BenignOp])
      | registerNamedNode n =>
        simp [BenignOp] at hop
        simp [applyOp, registerNamedNode, hm, hop]
        exact hn
      | setTargetPosition v => simp [applyOp, SetTargetPosition, hn]
      | setTargetRotation q => simp [applyOp, SetTargetRotation, hn]
      | setChainLength n => simp [applyOp, SetChainLength, hn]
      | setWeight w => simp [applyOp, SetWeight, hn]
      | setRotationWeight w => simp [applyOp, SetRotationWeight, hn]
      | setRotationDecay d => simp [applyOp, SetRotationDecay, hn]
      | enableWeightedNlerp b => simp [applyOp, EnableWeightedNlerp, hn]
      | enableInheritParentRotation b =>
        simp [applyOp, EnableInheritParentRotation, hn]
    · cases op with
      | setTargetNode n => simp [applyOp, SetTargetNode, hm]
      | setTargetName s => exact absurd hop (by simp [BenignOp])
      | registerNamedNode n =>
        simp [applyOp, registerNamedNode, hm, apply_ite]
      | setTargetPosition v =>
        simp [applyOp, SetTargetPosition, hm, apply_ite]
      | setTargetRotation q =>
        simp [applyOp, SetTargetRotation, hm, apply_ite]
      | setChainLength n => simp [applyOp, SetChainLength, hm]
      | setWeight w => simp [applyOp, SetWeight, hm]
      | setRotationWeight w => simp [applyOp, SetRotationWeight, hm]
      | setRotationDecay d => simp [applyOp, SetRotationDecay, hm]
      | enableWeightedNlerp b => simp [applyOp, EnableWeightedNlerp, hm]
      | enableInheritParentRotation b =>
        simp [applyOp, EnableInheritParentRotation, hm]

end IK

/-- Claim C4: `SetTargetName` always clears an existing node reference:
immediately afterwards `GetTargetNode` returns none, it keeps returning
none across any operations that do not set a node and do not register a
node with the stored name, and registering a node whose name matches the
stored name makes `GetTargetNode` return that node. -/
theorem IK.setTargetName_clears_target (e : IK.IKEffector)
    (nodeName : String) (ops : List IK.EffectorOp)
    (hops : ∀ op ∈ ops, IK.BenignOp nodeName op) :
    IK.GetTargetNode (IK.SetTargetName e nodeName) = none ∧
    IK.GetTargetNode
      (ops.foldl IK.applyOp (IK.SetTargetName e nodeName)) = none ∧
    (∀ n : IK.Node, n.name = nodeName →
      IK.GetTargetNode (IK.registerNamedNode
        (ops.foldl IK.applyOp (IK.SetTargetName e nodeName)) n) = some n) := by
  have hbase := IK.benign_foldl nodeName ops (IK.SetTargetName e nodeName)
    hops (by simp [IK.SetTargetName]) (by simp [IK.SetTargetName])
  refine ⟨by simp [IK.GetTargetNode, IK.SetTargetName], hbase.1, ?_⟩
  intro n hn
  rw [IK.GetTargetNode, IK.registerNamedNode, if_pos (by rw [hn, hbase.2])]

/-- Witness for claim C4: after `SetTargetName "foo"`, a weight change and
the registration of an unrelated node `"bar"`, the target node is still
none. -/
theorem IK.setTargetName_clears_target_witness :
    IK.GetTargetNode ([IK.EffectorOp.setWeight 1,
        IK.EffectorOp.registerNamedNode ⟨"bar", (0, 0, 0), (1, 0, 0, 0)⟩].foldl
      IK.applyOp (IK.SetTargetName IK.defaultEffector "foo")) = none :=
  (IK.setTargetName_clears_target IK.defaultEffector "foo" _
    (by intro op hop; fin_cases hop <;> simp [IK.BenignOp])).2.1

/-- Claim C5: while a live target node reference is set,
`SetTargetPosition` and `SetTargetRotation` are complete no-ops — the
effector state, every field included, is unchanged — and the resolved
goal pose still equals the target node's world pose. -/
theorem IK.setTargetPose_noop_when_referenced (e : IK.IKEffector)
    (n : IK.Node) (hn : e.targetNode_ = some n) (v : IK.Vec3) (q : IK.Quat)
    (alive : IK.Node → Bool) (ha : alive n = true) :
    IK.SetTargetPosition e v = e ∧ IK.SetTargetRotation e q = e ∧
    IK.ResolveGoalPose (IK.SetTargetPosition e v) alive
      = IK.ResolveGoalPose e alive ∧
    IK.ResolveGoalPose (IK.SetTargetRotation e q) alive
      = IK.ResolveGoalPose e alive ∧
    (IK.ResolveGoalPose e alive).position = n.worldPosition ∧
    (IK.ResolveGoalPose e alive).rotation = n.worldRotation ∧
    (IK.ResolveGoalPose e alive).hasTarget = true := by
  have hp : IK.SetTargetPosition e v = e := by
    rw [IK.SetTargetPosition, if_pos (by rw [hn]; rfl)]
  have hr : IK.SetTargetRotation e q = e := by
    rw [IK.SetTargetRotation, if_pos (by rw [hn]; rfl)]
  refine ⟨hp, hr, by rw [hp], by rw [hr], ?_, ?_, ?_⟩ <;>
    rw [IK.ResolveGoalPose] <;> rw [hn] <;> simp [ha]

/-- Witness for claim C5 on a concrete effector with a live target node. -/
theorem IK.setTargetPose_noop_witness :
    IK.SetTargetPosition IK.witnessEffector (4, 5, 6) = IK.witnessEffector ∧
    (IK.ResolveGoalPose IK.witnessEffector (fun _ => true)).position
      = IK.witnessNode.worldPosition :=
  ⟨(IK.setTargetPose_noop_when_referenced IK.witnessEffector IK.witnessNode
      rfl (4, 5, 6) (1, 0, 0, 0) (fun _ => true) rfl).1,
   (IK.setTargetPose_noop_when_referenced IK.witnessEffector IK.witnessNode
      rfl (4, 5, 6) (1, 0, 0, 0) (fun _ => true) rfl).2.2.2.2.1⟩

section SanityChecks
example : Platform.ParseArguments "abc de".toList false
    = [['a','b','c'], ['d','e']] := by decide
example : Platform.ParseArguments "abc de".toList true
    = [['d','e']] := by decide
example : Platform.ParseArguments "a\" b\"c d".toList false
    = [['a',' ','b','c'], ['d']] := by decide
example : Platform.ParseArguments "  x  ".toList false = [['x']] := by decide
example : Platform.ParseArguments "\"\"".toList false = [[]] := by decide
example : Platform.ParseArguments "".toList true = [] := by decide
example : Platform.ParseArgumentsSpec "abc de".toList false
    = [['a','b','c'], ['d','e']] := by decide
example : Platform.ParseArgumentsSpec "a\" b\"c d".toList true
    = [['d']] := by decide
example : Platform.GetCPUData (some (2, 0, 3)) (some 2) = ⟨2, 4⟩ := by decide
example : Platform.GetCPUArchitecture (some "armv7l") = "ARM" := by decide
example : Platform.GetHomePath (some "/home/u") none = "/home/u/" := by decide
example : Platform.GetTemporaryPath (some "/var/tmp") = "/var/tmp" := by
  decide
end SanityChecks
